import Mathlib

/-!
# Verification of the eve market-order line parser

Shallow embedding of the repository's two C source files:

* `src/eve_parser.c` — the self-delimiting variant, embedded in namespace
  `Eve.Canonical`.  Its numeric scanners skip runs of non-digit bytes before
  consuming a digit run.
* `src/unnamed/part_000` — the fixed-width variant, embedded in namespace
  `Eve.Variant`.  Its scanner consumes digits only, and the record assembler
  advances the cursor by exactly 3 bytes between fields (`str += 3`).

A C string is modelled as the list of its byte values up to (not including)
the terminating NUL: the end of the list plays the role of the terminator.
Machine integers are modelled as `Nat`/`Int` with explicit reduction
`% 2^w` wherever the C code's fixed-width arithmetic can wrap.
Functions `ejday`, `pt_to_utc` and `parser_factory` are byte-for-byte
identical in the two source files and are embedded once, in namespace `Eve`.
-/

namespace Eve

/-- C `isdigit` on a byte value. -/
def isdigit (c : Nat) : Bool := 48 ≤ c && c ≤ 57

/-- `ejday` (identical in both files): epoch-normalized day count times 86400,
computed entirely in `unsigned int` (32-bit) arithmetic.  The C expression is
`(year*365 + year/4 - year/100 + year/400 + (month*306 + 5)/10 + day - 1
 - 719558) * 86400`; the trailing `- 1 - 719558` is unsigned wraparound
subtraction, modelled as adding `2^32 - 719559` before reducing mod `2^32`. -/
def ejday (year month day : Nat) : Nat :=
  let y := year % 2^32
  let m := month % 2^32
  let d := day % 2^32
  ((y * 365 + y / 4 - y / 100 + y / 400 + (m * 306 + 5) / 10 + d
      + (2^32 - 719559)) % 2^32) * 86400 % 2^32

/-- `pt_to_utc` (identical in both files): Pacific-to-UTC correction by
comparison against three literal DST boundary constants.  The additions are
`uint32_t` arithmetic, hence the reductions mod `2^32`. -/
def pt_to_utc (pacificTime : Nat) : Nat :=
  if pacificTime < 1144033200 then (pacificTime + 8 * 3600) % 2^32
  else if pacificTime < 1162256400 then (pacificTime + 7 * 3600) % 2^32
  else if pacificTime < 1173754800 then (pacificTime + 8 * 3600) % 2^32
  else (pacificTime + 7 * 3600) % 2^32

/-- The record populated by one parse (`struct raw_record`).  Unsigned fields
are `Nat`s already reduced to their width; `range` is the `int8_t` field,
kept as an `Int` since its meaningful values include `-1` and `-2`. -/
structure RawRecord where
  orderID : Nat
  regionID : Nat
  systemID : Nat
  stationID : Nat
  typeID : Nat
  bid : Nat
  price : Nat
  volMin : Nat
  volRem : Nat
  volEnt : Nat
  issued : Nat
  duration : Nat
  range : Int
  reportedby : Nat
  rtime : Nat
deriving Repr, DecidableEq

/-- Maximal digit run: accumulate `val = val*10 + (c - '0')` over leading
digit bytes, returning the value and the remaining cursor.  Width reduction
(`% 2^64`, `% 2^32`, ...) is applied by each caller, which is equivalent to
the C code's per-step fixed-width accumulation. -/
def digits (acc : Nat) : List Nat → Nat × List Nat
  | [] => (acc, [])
  | c :: cs => if isdigit c then digits (acc * 10 + (c - 48)) cs else (acc, c :: cs)

/-- Two's-complement reinterpretation of a 32-bit pattern as a signed value
(the value of an `int` whose representation is `n % 2^32`). -/
def toInt32 (n : Nat) : Int :=
  if n % 2^32 < 2^31 then ((n % 2^32 : Nat) : Int) else ((n % 2^32 : Nat) : Int) - 2^32

namespace Canonical

/-- The skip loop shared by the canonical scanners:
`while (!isdigit(*str) && *str != '\0') str++`. -/
def skip : List Nat → List Nat
  | [] => []
  | c :: cs => if isdigit c = false ∧ c ≠ 0 then skip cs else c :: cs

/-- `parse_uint64` of `src/eve_parser.c`: skip non-digits, consume a digit
run, accumulate in `uint64_t`. -/
def parse_uint64 (s : List Nat) : Nat × List Nat :=
  let p := digits 0 (skip s)
  (p.1 % 2^64, p.2)

/-- `parse_uint32` of `src/eve_parser.c`. -/
def parse_uint32 (s : List Nat) : Nat × List Nat :=
  let p := digits 0 (skip s)
  (p.1 % 2^32, p.2)

/-- `parse_int` of `src/eve_parser.c`.  The digit run is accumulated in a
(32-bit) `int`; the accumulated magnitude is returned unreduced here and
every use site applies the conversion the C code performs on the returned
`int` (`% 2^32` for `unsigned`, `% 256` for `uint8_t`, `toInt32` where the
signed value is inspected), which matches the two's-complement wrap. -/
def parse_int (s : List Nat) : Nat × List Nat :=
  digits 0 (skip s)

/-- `range_to_byte` of `src/eve_parser.c`: exact lookup on the signed
argument, `-2` on anything else. -/
def range_to_byte (range : Int) : Int :=
  if range = -1 then -1
  else if range = 0 then 0
  else if range = 5 then 5
  else if range = 10 then 10
  else if range = 20 then 20
  else if range = 40 then 40
  else if range = 32767 then 127
  else if range = 65535 then 127
  else -2

/-- The skip loop of the canonical `parse_range`:
`while (!isdigit(*str) && *str != '\0' && *str != '-') str++`. -/
def skipRange : List Nat → List Nat
  | [] => []
  | c :: cs => if isdigit c = false ∧ c ≠ 0 ∧ c ≠ 45 then skipRange cs else c :: cs

/-- `parse_range` of `src/eve_parser.c`.  If the first byte that is a digit
or `'-'` is `'-'`, it returns `-1` and — since the C code returns without
executing `*s = str` — leaves the caller's cursor exactly where it was. -/
def parse_range (s : List Nat) : Int × List Nat :=
  let s1 := skipRange s
  if s1.head? = some 45 then (-1, s)
  else
    let p := parse_int s1
    (range_to_byte (toInt32 p.1), p.2)

/-- The price block of the canonical `parser`: whole part times 100 in
`uint64_t`, then an optional `'.'` followed by one unconditionally consumed
byte (times 10) and one more digit if present.  The unconditional
`*str++ - '0'` can be negative, hence the signed `Int.emod` arithmetic. -/
def parse_price (s : List Nat) : Nat × List Nat :=
  let p := parse_uint64 s
  let p0 : Nat := p.1 * 100 % 2^64
  match p.2 with
  | 46 :: t =>
    match t with
    | c :: t2 =>
      let p1 : Nat := (((p0 : Int) + ((c : Int) - 48) * 10).emod (2^64)).toNat
      (match t2 with
       | d :: t3 =>
         if isdigit d then ((p1 + (d - 48)) % 2^64, t3) else (p1, t2)
       | [] => (p1, []))
    | [] => ((((p0 : Int) - 480).emod (2^64)).toNat, [])
  | _ => (p0, p.2)

/-- The timestamp block of the canonical `parser` (it appears twice inline,
once for `issued` and once for `rtime`): three `parse_int`s into `ejday`,
then hour, minute, second, then the rounding guard
`if (isdigit(*str) && *str - '0' > 5) val++;` which inspects the byte the
cursor rests on without advancing it. -/
def parse_datetime (s : List Nat) : Nat × List Nat :=
  let py := parse_int s
  let pm := parse_int py.2
  let pd := parse_int pm.2
  let v0 := ejday py.1 pm.1 pd.1
  let ph := parse_int pd.2
  let pmi := parse_int ph.2
  let pse := parse_int pmi.2
  let v := (v0 + ph.1 * 3600 + pmi.1 * 60 + pse.1) % 2^32
  match pse.2 with
  | c :: _ => if isdigit c = true ∧ 53 < c then ((v + 1) % 2^32, pse.2) else (v, pse.2)
  | [] => (v, [])

/-- `parser` of `src/eve_parser.c`: positional assembly of the 15 fields. -/
def parser (s : List Nat) : RawRecord :=
  let p1 := parse_uint64 s
  let p2 := parse_uint32 p1.2
  let p3 := parse_uint32 p2.2
  let p4 := parse_uint32 p3.2
  let p5 := parse_uint32 p4.2
  let p6 := parse_int p5.2
  let p7 := parse_price p6.2
  let p8 := parse_uint32 p7.2
  let p9 := parse_uint32 p8.2
  let p10 := parse_uint32 p9.2
  let p11 := parse_datetime p10.2
  let p12 := parse_uint32 p11.2
  let p13 := parse_int p12.2
  let p14 := parse_int p13.2
  let p15 := parse_int p14.2
  let p16 := parse_range p15.2
  let p17 := parse_uint64 p16.2
  let p18 := parse_datetime p17.2
  { orderID := p1.1, regionID := p2.1, systemID := p3.1, stationID := p4.1,
    typeID := p5.1, bid := p6.1 % 256, price := p7.1, volMin := p8.1,
    volRem := p9.1, volEnt := p10.1, issued := p11.1, duration := p12.1 % 2^16,
    range := p16.1, reportedby := p17.1, rtime := p18.1 }

/-- The post-assembly logic of the canonical `parse_pt_bo` (Epoch A),
operating on the record the assembler produced: reject `bid > 1`
immediately; force `range` to `-1` for buy orders; validate; convert the
timestamps to UTC only on the success path. -/
def parse_pt_bo_rec (rec0 : RawRecord) : Nat × RawRecord :=
  if 1 < rec0.bid then (1, rec0)
  else
    let rec1 := if rec0.bid = 1 then { rec0 with range := range_to_byte (-1) } else rec0
    if rec1.range = -2 ∨ rec1.rtime < rec1.issued then (1, rec1)
    else (0, { rec1 with issued := pt_to_utc rec1.issued, rtime := pt_to_utc rec1.rtime })

/-- `parse_pt_bo` of `src/eve_parser.c`. -/
def parse_pt_bo (s : List Nat) : Nat × RawRecord :=
  parse_pt_bo_rec (parser s)

/-- The post-assembly logic of the canonical `parse_pt` (Epoch B): validate,
then convert the timestamps to UTC only on the success path. -/
def parse_pt_rec (rec0 : RawRecord) : Nat × RawRecord :=
  if rec0.range = -2 ∨ rec0.rtime < rec0.issued then (1, rec0)
  else (0, { rec0 with issued := pt_to_utc rec0.issued, rtime := pt_to_utc rec0.rtime })

/-- `parse_pt` of `src/eve_parser.c`. -/
def parse_pt (s : List Nat) : Nat × RawRecord :=
  parse_pt_rec (parser s)

/-- The post-assembly logic of the canonical `parse` (Epoch C): validate;
no timezone correction. -/
def parse_rec (rec0 : RawRecord) : Nat × RawRecord :=
  if rec0.range = -2 ∨ rec0.rtime < rec0.issued then (1, rec0)
  else (0, rec0)

/-- `parse` of `src/eve_parser.c`. -/
def parse (s : List Nat) : Nat × RawRecord :=
  parse_rec (parser s)

end Canonical

namespace Variant

/-- `parse_uint64` of `src/unnamed/part_000`: consumes a digit run with no
leading skip. -/
def parse_uint64 (s : List Nat) : Nat × List Nat :=
  let p := digits 0 s
  (p.1 % 2^64, p.2)

/-- `while (isdigit(**s)) *s += 1`. -/
def skipDigits : List Nat → List Nat
  | [] => []
  | c :: cs => if isdigit c = true then skipDigits cs else c :: cs

/-- `range_to_byte` of `src/unnamed/part_000`: same lookup but on an
`unsigned int` argument, so there is no `-1` case. -/
def range_to_byte (range : Nat) : Int :=
  if range = 0 then 0
  else if range = 5 then 5
  else if range = 10 then 10
  else if range = 20 then 20
  else if range = 40 then 40
  else if range = 32767 then 127
  else if range = 65535 then 127
  else -2

/-- `parse_range` of `src/unnamed/part_000`: a leading `'-'` is consumed
together with the following digit run and encodes as `-1`; otherwise the
digit run goes through `range_to_byte` (truncated to `unsigned int`). -/
def parse_range (s : List Nat) : Int × List Nat :=
  if s.head? = some 45 then (-1, skipDigits (s.drop 1))
  else
    let p := parse_uint64 s
    (range_to_byte (p.1 % 2^32), p.2)

/-- The first part of `parse_datetime` of `src/unnamed/part_000`: six digit
runs (year, month, day, hour, minute, second) with no separator skipping;
the C source passes the first three as arguments of `ejday` and C leaves
their evaluation order unspecified — the embedding fixes left-to-right
order. -/
def parse_dt_fields (s : List Nat) : Nat × List Nat :=
  let py := parse_uint64 s
  let pm := parse_uint64 py.2
  let pd := parse_uint64 pm.2
  let v0 := ejday py.1 pm.1 pd.1
  let ph := parse_uint64 pd.2
  let pmi := parse_uint64 ph.2
  let pse := parse_uint64 pmi.2
  ((v0 + ph.1 * 3600 + pmi.1 * 60 + pse.1) % 2^32, pse.2)

/-- The fractional-second tail of `parse_datetime` of `src/unnamed/part_000`:
no `'.'` means done; otherwise step past the `'.'`, add one second when the
byte there is a digit greater than `'5'`, then consume the whole digit run. -/
def parse_fraction (val : Nat) : List Nat → Nat × List Nat
  | [] => (val, [])
  | c :: rest =>
    if c = 46 then
      ((match rest with
        | d :: _ => if isdigit d = true ∧ 53 < d then (val + 1) % 2^32 else val
        | [] => val), skipDigits rest)
    else (val, c :: rest)

/-- `parse_datetime` of `src/unnamed/part_000`. -/
def parse_datetime (s : List Nat) : Nat × List Nat :=
  let p := parse_dt_fields s
  parse_fraction p.1 p.2

/-- The price block of the variant `parser`: as in the canonical one but the
cent bytes are cast to `uint32_t` before the addition. -/
def parse_price (s : List Nat) : Nat × List Nat :=
  let p := parse_uint64 s
  let p0 : Nat := p.1 * 100 % 2^64
  match p.2 with
  | 46 :: t =>
    match t with
    | c :: t2 =>
      let p1 : Nat := (p0 + (((c : Int) - 48).emod (2^32)).toNat * 10 % 2^32) % 2^64
      (match t2 with
       | d :: t3 =>
         if isdigit d then ((p1 + (((d : Int) - 48).emod (2^32)).toNat) % 2^64, t3)
         else (p1, t2)
       | [] => (p1, []))
    | [] => ((p0 + (((0 : Int) - 48).emod (2^32)).toNat * 10 % 2^32) % 2^64, [])
  | _ => (p0, p.2)

/-- `str += 3` between the fixed-width fields. -/
def drop3 (s : List Nat) : List Nat := s.drop 3

/-- `parser` of `src/unnamed/part_000`: strip one leading `'"'`, then
fixed-width positional assembly (3 separator bytes between fields). -/
def parser (s : List Nat) : RawRecord :=
  let s0 := match s with
    | 34 :: rest => rest
    | _ => s
  let p1 := parse_uint64 s0
  let p2 := parse_uint64 (drop3 p1.2)
  let p3 := parse_uint64 (drop3 p2.2)
  let p4 := parse_uint64 (drop3 p3.2)
  let p5 := parse_uint64 (drop3 p4.2)
  let p6 := parse_uint64 (drop3 p5.2)
  let p7 := parse_price (drop3 p6.2)
  let p8 := parse_uint64 (drop3 p7.2)
  let p9 := parse_uint64 (drop3 p8.2)
  let p10 := parse_uint64 (drop3 p9.2)
  let p11 := parse_datetime (drop3 p10.2)
  let p12 := parse_uint64 (drop3 p11.2)
  let p13 := parse_uint64 p12.2
  let p14 := parse_uint64 p13.2
  let p15 := parse_uint64 p14.2
  let s15 := match p15.2 with
    | 46 :: rest => skipDigits rest
    | t => t
  let p16 := parse_range (drop3 s15)
  let p17 := parse_uint64 (drop3 p16.2)
  let p18 := parse_datetime (drop3 p17.2)
  { orderID := p1.1, regionID := p2.1, systemID := p3.1, stationID := p4.1,
    typeID := p5.1, bid := p6.1 % 256, price := p7.1, volMin := p8.1,
    volRem := p9.1, volEnt := p10.1, issued := p11.1, duration := p12.1 % 2^16,
    range := p16.1, reportedby := p17.1, rtime := p18.1 }

/-- `has_badval` of `src/unnamed/part_000`: `0` on success, otherwise `1`,
`2` or `3` identifying which invariant failed. -/
def has_badval (r : RawRecord) : Nat :=
  if r.rtime < r.issued then 1
  else if 1 < r.bid then 2
  else if r.range = -2 then 3
  else 0

/-- The post-assembly logic of the fixed-width `parse_pt_bo`: force
buy-order `range` to `-1`, convert the timestamps to UTC unconditionally,
then validate. -/
def parse_pt_bo_rec (rec0 : RawRecord) : Nat × RawRecord :=
  let rec1 := if rec0.bid = 1 then { rec0 with range := -1 } else rec0
  let rec2 := { rec1 with issued := pt_to_utc rec1.issued, rtime := pt_to_utc rec1.rtime }
  (has_badval rec2, rec2)

/-- `parse_pt_bo` of `src/unnamed/part_000`. -/
def parse_pt_bo (s : List Nat) : Nat × RawRecord :=
  parse_pt_bo_rec (parser s)

/-- The post-assembly logic of the fixed-width `parse_pt`: convert the
timestamps to UTC unconditionally, then validate. -/
def parse_pt_rec (rec0 : RawRecord) : Nat × RawRecord :=
  let rec2 := { rec0 with issued := pt_to_utc rec0.issued, rtime := pt_to_utc rec0.rtime }
  (has_badval rec2, rec2)

/-- `parse_pt` of `src/unnamed/part_000`. -/
def parse_pt (s : List Nat) : Nat × RawRecord :=
  parse_pt_rec (parser s)

/-- The post-assembly logic of the fixed-width `parse`: validate only. -/
def parse_rec (rec0 : RawRecord) : Nat × RawRecord :=
  (has_badval rec0, rec0)

/-- `parse` of `src/unnamed/part_000`. -/
def parse (s : List Nat) : Nat × RawRecord :=
  parse_rec (parser s)

end Variant

/-- The three per-line entry points a `parser_factory` call can select
(function pointers in C, modelled as an enumeration). -/
inductive WhichParser where
  | parse_pt_bo
  | parse_pt
  | parse
deriving Repr, DecidableEq

/-- Position of an epoch variant in the factory's chronological order. -/
def WhichParser.rank : WhichParser → Nat
  | .parse_pt_bo => 0
  | .parse_pt => 1
  | .parse => 2

/-- `parser_factory` (identical decision logic in both files): encode the
representative date with `ejday` and compare against the two literal epoch
boundaries. -/
def parser_factory (yr mn dy : Nat) : WhichParser :=
  let parsedTime := ejday yr mn dy
  if parsedTime < 1167609600 then .parse_pt_bo
  else if parsedTime < 1191369600 then .parse_pt
  else .parse

/-- Convert a text line to its byte list. -/
def bytes (s : String) : List Nat := s.data.map Char.toNat

/-- Gregorian leap-year test (spec-side reference material). -/
def isLeap (y : Nat) : Bool := (y % 4 = 0 && y % 100 ≠ 0) || y % 400 = 0

/-- Length of a month in the Gregorian calendar (spec-side reference). -/
def daysInMonth (y m : Nat) : Nat :=
  if m = 2 then (if isLeap y then 29 else 28)
  else if m = 4 ∨ m = 6 ∨ m = 9 ∨ m = 11 then 30
  else 31

/-- A valid calendar date in the sense of the spec. -/
def ValidDate (y m d : Nat) : Prop :=
  1 ≤ m ∧ m ≤ 12 ∧ 1 ≤ d ∧ d ≤ daysInMonth y m

instance (y m d : Nat) : Decidable (ValidDate y m d) := by
  unfold ValidDate; infer_instance

/-- Reference definition written from the spec's words (§4.2, §8): the exact
proleptic-Gregorian day number of a calendar date relative to 1970-01-01,
via the standard civil-calendar conversion (months January and February
count as months 13 and 14 of the previous year, so that the leap day lands
after February). -/
def specGregorianDays (y m d : Nat) : Int :=
  let y2 : Int := if m ≤ 2 then (y : Int) - 1 else (y : Int)
  let m2 : Int := if m ≤ 2 then (m : Int) + 12 else (m : Int)
  365 * y2 + y2 / 4 - y2 / 100 + y2 / 400 + (153 * (m2 - 3) + 2) / 5
    + (d : Int) - 1 - 719468

/-- Reference definition written from the spec's words: exact UTC epoch
seconds of a calendar date at 00:00:00 under the proleptic Gregorian
calendar. -/
def specGregorianSeconds (y m d : Nat) : Int := specGregorianDays y m d * 86400

/-!
## Concrete input lines used by the theorems

Lines for the canonical (self-delimiting) variant use single-byte
separators; lines for the fixed-width variant use exactly three separator
bytes (`","`) between fields as its `str += 3` stepping requires.
-/

/-- Canonical-format line with `bid = 2`, a valid range and `issued ≤ rtime`. -/
def cLineBid2 : List Nat :=
  bytes "1,2,3,4,5,2,100.50,1,1,1,2006-01-15 10:00:00,90,00:00:00,5,7,2006-01-15 11:00:00"

/-- Canonical-format line with `bid = 1` (buy order), a valid range and
`issued ≤ rtime`. -/
def cLineBid1 : List Nat :=
  bytes "1,2,3,4,5,1,100.50,1,1,1,2006-01-15 10:00:00,90,00:00:00,5,7,2006-01-15 11:00:00"

/-- Canonical-format line whose `issued` timestamp carries the fractional
part `.7` (first fractional digit `7 ≥ 6`). -/
def cLineFrac : List Nat :=
  bytes "1,2,3,4,5,0,100.50,1,1,1,2006-01-15 10:00:00.7,90,00:00:00,5,7,2006-01-15 11:00:00"

/-- Canonical-format line whose range field is `-1`. -/
def cLineMinus : List Nat :=
  bytes "1,2,3,4,5,0,100.50,1,1,1,2006-01-15 10:00:00,90,00:00:00,-1,777,2006-01-15 11:00:00"

/-- Canonical-format line with `issued` one hour after `rtime` (fails
validation). -/
def cLineRev : List Nat :=
  bytes "1,2,3,4,5,0,100.50,1,1,1,2006-01-15 11:00:00,90,00:00:00,5,7,2006-01-15 10:00:00"

/-- Fixed-width-format line with `bid = 2`, a valid range and
`issued ≤ rtime`. -/
def vLineBid2 : List Nat :=
  bytes "\"1\",\"2\",\"3\",\"4\",\"5\",\"2\",\"6\",\"7\",\"8\",\"9\",\"2006\",\"10\",\"5\",\"11\",\"2007\""

/-- Fixed-width-format line whose assembled `issued` exceeds its assembled
`rtime`. -/
def vLineRev : List Nat :=
  bytes "\"1\",\"2\",\"3\",\"4\",\"5\",\"0\",\"6\",\"7\",\"8\",\"9\",\"2007\",\"10\",\"5\",\"11\",\"2006\""

/-- Fixed-width-format buy-order line whose assembled timestamps
(1144033152 and 1144033280) straddle the first DST boundary 1144033200
within one hour: `issued ≤ rtime` before the Pacific-to-UTC correction but
not after it. -/
def vLineDst : List Nat :=
  bytes "\"1\",\"2\",\"3\",\"4\",\"5\",\"1\",\"6\",\"7\",\"8\",\"9\",\"13372404\",\"10\",\"5\",\"11\",\"38137133\""

/-!
## Helper lemmas
-/

theorem skipRange_cons_of (c : Nat) (cs : List Nat) (h1 : isdigit c = false)
    (h2 : c ≠ 0) (h3 : c ≠ 45) :
    Canonical.skipRange (c :: cs) = Canonical.skipRange cs := by
  simp [Canonical.skipRange, h1, h2, h3]

theorem skipRange_append_of (pre rest : List Nat)
    (h : ∀ c ∈ pre, isdigit c = false ∧ c ≠ 0 ∧ c ≠ 45) :
    Canonical.skipRange (pre ++ rest) = Canonical.skipRange rest := by
  induction pre with
  | nil => rfl
  | cons c cs ih =>
    have hc := h c (List.mem_cons_self c cs)
    rw [List.cons_append, skipRange_cons_of c _ hc.1 hc.2.1 hc.2.2]
    exact ih fun x hx => h x (List.mem_cons_of_mem c hx)

theorem skipRange_minus (rest : List Nat) :
    Canonical.skipRange (45 :: rest) = 45 :: rest := by
  simp [Canonical.skipRange]

theorem skip_cons_of (c : Nat) (cs : List Nat) (h1 : isdigit c = false)
    (h2 : c ≠ 0) : Canonical.skip (c :: cs) = Canonical.skip cs := by
  simp [Canonical.skip, h1, h2]

theorem skip_append_of (pre rest : List Nat)
    (h : ∀ c ∈ pre, isdigit c = false ∧ c ≠ 0) :
    Canonical.skip (pre ++ rest) = Canonical.skip rest := by
  induction pre with
  | nil => rfl
  | cons c cs ih =>
    have hc := h c (List.mem_cons_self c cs)
    rw [List.cons_append, skip_cons_of c _ hc.1 hc.2]
    exact ih fun x hx => h x (List.mem_cons_of_mem c hx)

/-- The canonical `parse_range` on a cursor whose first digit-or-minus byte
is `'-'`: the result is `-1` and the cursor handed back to the caller is the
original one. -/
theorem parse_range_minus_of (pre rest : List Nat)
    (h : ∀ c ∈ pre, isdigit c = false ∧ c ≠ 0 ∧ c ≠ 45) :
    Canonical.parse_range (pre ++ 45 :: rest) = (-1, pre ++ 45 :: rest) := by
  unfold Canonical.parse_range
  rw [skipRange_append_of pre _ h, skipRange_minus]
  simp

/-- After the canonical `parse_range` declines to move the cursor, the next
scan skips the separators and the minus sign alike and reads the digit run
that followed the minus sign. -/
theorem parse_uint64_past_minus_of (pre rest : List Nat)
    (h : ∀ c ∈ pre, isdigit c = false ∧ c ≠ 0 ∧ c ≠ 45) :
    Canonical.parse_uint64 (pre ++ 45 :: rest) = Canonical.parse_uint64 rest := by
  unfold Canonical.parse_uint64
  rw [skip_append_of pre _ (fun c hc => ⟨(h c hc).1, (h c hc).2.1⟩),
    skip_cons_of 45 rest (by decide) (by decide)]

end Eve

namespace Eve

/-!
## The claims
-/

/-- C6: the range encoder maps exactly
`{-1 → -1, 0 → 0, 5 → 5, 10 → 10, 20 → 20, 40 → 40, 32767 → 127,
 65535 → 127}` and every other integer to the invalid sentinel `-2`, and a
leading minus sign in the range field text is recognized before digit
scanning and encodes directly as `-1` (in both source variants). -/
theorem C6_range_encoder :
    (Canonical.range_to_byte (-1) = -1 ∧ Canonical.range_to_byte 0 = 0 ∧
     Canonical.range_to_byte 5 = 5 ∧ Canonical.range_to_byte 10 = 10 ∧
     Canonical.range_to_byte 20 = 20 ∧ Canonical.range_to_byte 40 = 40 ∧
     Canonical.range_to_byte 32767 = 127 ∧ Canonical.range_to_byte 65535 = 127) ∧
    (∀ n : Int, n ≠ -1 → n ≠ 0 → n ≠ 5 → n ≠ 10 → n ≠ 20 → n ≠ 40 →
      n ≠ 32767 → n ≠ 65535 → Canonical.range_to_byte n = -2) ∧
    (∀ pre rest : List Nat, (∀ c ∈ pre, isdigit c = false ∧ c ≠ 0 ∧ c ≠ 45) →
      Canonical.parse_range (pre ++ 45 :: rest) = (-1, pre ++ 45 :: rest)) ∧
    (∀ rest : List Nat, Variant.parse_range (45 :: rest) = (-1, Variant.skipDigits rest)) := by
  refine ⟨by decide, ?_, parse_range_minus_of, ?_⟩
  · intro n h1 h2 h3 h4 h5 h6 h7 h8
    unfold Canonical.range_to_byte
    split_ifs <;> first | rfl | contradiction
  · intro rest
    simp [Variant.parse_range]

/-- C6 witness: the universally quantified parts of `C6_range_encoder`
evaluated at concrete inputs (`7` is not in the lookup table; a range field
text `",-1"`). -/
theorem C6_range_encoder_witness :
    Canonical.range_to_byte 7 = -2 ∧
    Canonical.parse_range [44, 45, 49] = (-1, [44, 45, 49]) ∧
    Variant.parse_range [45, 49] = (-1, Variant.skipDigits [49]) :=
  ⟨C6_range_encoder.2.1 7 (by decide) (by decide) (by decide) (by decide)
      (by decide) (by decide) (by decide) (by decide),
   C6_range_encoder.2.2.1 [44] [49] (by decide),
   C6_range_encoder.2.2.2 [49]⟩

/-- C7: `pt_to_utc` is piecewise constant over the three DST boundary
constants: `+8h` below 1144033200, `+7h` on [1144033200, 1162256400),
`+8h` on [1162256400, 1173754800), `+7h` at or above 1173754800 (the last
segment reduced mod `2^32`, exact whenever the sum fits in 32 bits). -/
theorem C7_pt_to_utc_piecewise :
    ∀ t : Nat, t < 2^32 →
      (t < 1144033200 → pt_to_utc t = t + 8 * 3600) ∧
      (1144033200 ≤ t → t < 1162256400 → pt_to_utc t = t + 7 * 3600) ∧
      (1162256400 ≤ t → t < 1173754800 → pt_to_utc t = t + 8 * 3600) ∧
      (1173754800 ≤ t → pt_to_utc t = (t + 7 * 3600) % 2^32) ∧
      (1173754800 ≤ t → t + 7 * 3600 < 2^32 → pt_to_utc t = t + 7 * 3600) := by
  intro t ht
  unfold pt_to_utc
  refine ⟨fun h1 => ?_, fun h1 h2 => ?_, fun h1 h2 => ?_, fun h1 => ?_, fun h1 h2 => ?_⟩
  · rw [if_pos h1]; exact Nat.mod_eq_of_lt (by omega)
  · rw [if_neg (by omega), if_pos h2]; exact Nat.mod_eq_of_lt (by omega)
  · rw [if_neg (by omega), if_neg (by omega), if_pos h2]
    exact Nat.mod_eq_of_lt (by omega)
  · rw [if_neg (by omega), if_neg (by omega), if_neg (by omega)]
  · rw [if_neg (by omega), if_neg (by omega), if_neg (by omega)]
    exact Nat.mod_eq_of_lt h2

/-- C7 witness: one input from each segment. -/
theorem C7_pt_to_utc_piecewise_witness :
    pt_to_utc 0 = 0 + 8 * 3600 ∧
    pt_to_utc 1144033200 = 1144033200 + 7 * 3600 ∧
    pt_to_utc 1162256400 = 1162256400 + 8 * 3600 ∧
    pt_to_utc 1173754800 = 1173754800 + 7 * 3600 :=
  ⟨(C7_pt_to_utc_piecewise 0 (by decide)).1 (by decide),
   (C7_pt_to_utc_piecewise 1144033200 (by decide)).2.1 (by decide) (by decide),
   (C7_pt_to_utc_piecewise 1162256400 (by decide)).2.2.1 (by decide) (by decide),
   (C7_pt_to_utc_piecewise 1173754800 (by decide)).2.2.2.2 (by decide) (by decide)⟩

/-- C10: when the range field text has a `'-'` before any digit, the
canonical `parse_range` returns `-1` without advancing the caller's cursor,
so the following `reportedby` scan consumes the digit run after the minus
sign, displacing every later field; on the concrete line whose range/
reportedby/rtime fields read `...,-1,777,2006-01-15 11:00:00`, the record
gets `range = -1`, `reportedby = 1` (the digit of `-1`), and an `rtime`
assembled from displaced fields instead of the encoding 1137322800 of
2006-01-15 11:00:00. -/
theorem C10_minus_range_cursor :
    (∀ pre rest : List Nat, (∀ c ∈ pre, isdigit c = false ∧ c ≠ 0 ∧ c ≠ 45) →
      Canonical.parse_range (pre ++ 45 :: rest) = (-1, pre ++ 45 :: rest) ∧
      Canonical.parse_uint64 (pre ++ 45 :: rest) = Canonical.parse_uint64 rest) ∧
    (Canonical.parser cLineMinus).range = -1 ∧
    (Canonical.parser cLineMinus).reportedby = 1 ∧
    (Canonical.parser cLineMinus).rtime = 2013274628 ∧
    (Canonical.parser cLineMinus).rtime ≠ 1137322800 := by
  refine ⟨fun pre rest h => ⟨parse_range_minus_of pre rest h,
    parse_uint64_past_minus_of pre rest h⟩, by decide, by decide, by decide, by decide⟩

/-- C10 witness: the quantified part of `C10_minus_range_cursor` at the
concrete cursor `",-12,"`-like fragment `[44, 45, 49, 50]`. -/
theorem C10_minus_range_cursor_witness :
    Canonical.parse_range [44, 45, 49, 50] = (-1, [44, 45, 49, 50]) ∧
    Canonical.parse_uint64 [44, 45, 49, 50] = Canonical.parse_uint64 [49, 50] :=
  C10_minus_range_cursor.1 [44] [49, 50] (by decide)

/-- C4 counterexample: 2007-03-01 is a valid calendar date, yet `ejday` does
not return its exact proleptic-Gregorian epoch seconds (it is two days
late: `ejday` applies no January/February year shift, so its leap-day and
month-length accounting is wrong away from the January anchor). -/
theorem C4_counterexample :
    ValidDate 2007 3 1 ∧
    (ejday 2007 3 1 : Int) ≠ specGregorianSeconds 2007 3 1 := by
  constructor
  · decide
  · decide

/-- C4 amended: `ejday` reproduces the reference point
`ejday(2007, 1, 1) = 1167609600`, agreeing there with the exact
proleptic-Gregorian conversion, but it is not that conversion on every
valid date: on 2007-03-01 it is exactly two days (`2 * 86400` seconds)
ahead of it. -/
theorem C4_ejday_reference :
    ejday 2007 1 1 = 1167609600 ∧
    specGregorianSeconds 2007 1 1 = 1167609600 ∧
    ValidDate 2007 3 1 ∧
    (ejday 2007 3 1 : Int) = specGregorianSeconds 2007 3 1 + 2 * 86400 := by
  refine ⟨by decide, by decide, by decide, by decide⟩

/-- C8 counterexample: the calendar dates 2006-12-29 and 2006-12-31 are both
strictly before 2007-01-01, yet the factory sends the first to Epoch A and
the second to Epoch B — the claimed partition of calendar dates at
2007-01-01 does not hold (because `ejday` is not monotone in the calendar
date across the year boundary). -/
theorem C8_counterexample :
    ValidDate 2006 12 31 ∧
    parser_factory 2006 12 31 = WhichParser.parse_pt ∧
    parser_factory 2006 12 29 = WhichParser.parse_pt_bo := by
  refine ⟨by decide, by decide, by decide⟩

/-- C8 amended: `parser_factory` partitions the `ejday`-encoded time of the
given date at the two literal boundaries 1167609600 and 1191369600 —
monotonically in that encoded value, and with the two boundary dates landing
on Epoch B and Epoch C respectively — but not monotonically in the calendar
date itself (see the counterexample). -/
theorem C8_factory_partition :
    parser_factory 2007 1 1 = WhichParser.parse_pt ∧
    parser_factory 2007 10 1 = WhichParser.parse ∧
    (∀ y m d, ejday y m d < 1167609600 ↔
      parser_factory y m d = WhichParser.parse_pt_bo) ∧
    (∀ y m d y2 m2 d2, ejday y m d ≤ ejday y2 m2 d2 →
      (parser_factory y m d).rank ≤ (parser_factory y2 m2 d2).rank) := by
  refine ⟨by decide, by decide, ?_, ?_⟩
  · intro y m d
    simp only [parser_factory]
    split_ifs with h1 h2 <;> simp_all
  · intro y m d y2 m2 d2 hle
    simp only [parser_factory]
    split_ifs <;> simp [WhichParser.rank] <;> omega

/-- C8 witness: the quantified parts of `C8_factory_partition` at concrete
dates. -/
theorem C8_factory_partition_witness :
    (ejday 2006 1 1 < 1167609600 ↔
      parser_factory 2006 1 1 = WhichParser.parse_pt_bo) ∧
    (parser_factory 2006 1 1).rank ≤ (parser_factory 2008 1 1).rank :=
  ⟨C8_factory_partition.2.2.1 2006 1 1,
   C8_factory_partition.2.2.2 2006 1 1 2008 1 1 (by decide)⟩

/-- C2: the fixed-width variant implements the claimed round-half-up rule
(first fractional digit greater than `'5'` adds one second, every further
fractional digit is consumed with no effect), but the canonical variant
does not: its guard `if (isdigit(*str) && *str - '0' > 5)` inspects the
byte the cursor rests on after the seconds scan, which is necessarily a
non-digit (here the `'.'`), so on the concrete line whose `issued` seconds
field reads `00.7` the value stays 1137319200 un-rounded and the fractional
digit `7` is consumed by the next scan as the `duration` field. -/
theorem C2_round_half_up :
    (∀ (val d : Nat) (rest : List Nat), val < 2^32 → isdigit d = true →
      Variant.parse_fraction val (46 :: d :: rest) =
        ((val + if 54 ≤ d then 1 else 0) % 2^32, Variant.skipDigits (d :: rest))) ∧
    (Canonical.parser cLineFrac).issued = 1137319200 ∧
    (Canonical.parser cLineFrac).duration = 7 := by
  refine ⟨?_, by decide, by decide⟩
  intro val d rest hval hd
  by_cases h54 : 54 ≤ d
  · have h53 : 53 < d := by omega
    simp [Variant.parse_fraction, hd, h53, h54]
  · have h53 : ¬53 < d := by omega
    simp [Variant.parse_fraction, h53, h54]
    omega

/-- C2 witness: the quantified part of `C2_round_half_up` at the fractional
text `".7"` (byte `55`) with seconds value 10: digit `7` rounds up. -/
theorem C2_round_half_up_witness :
    Variant.parse_fraction 10 (46 :: 55 :: []) =
      ((10 + if 54 ≤ (55 : Nat) then 1 else 0) % 2^32, Variant.skipDigits (55 :: [])) :=
  C2_round_half_up.1 10 55 [] (by decide) (by decide)

/-- C1 counterexample: a canonical-format line with `bid = 2`, a valid range
and `issued ≤ rtime` — the canonical `parse_pt` and `parse` never look at
`bid` and return status 0, not 1. -/
theorem C1_counterexample :
    (Canonical.parser cLineBid2).bid = 2 ∧
    (Canonical.parse_pt cLineBid2).1 = 0 ∧
    (Canonical.parse cLineBid2).1 = 0 := by
  refine ⟨by decide, by decide, by decide⟩

/-- C1 amended: when the assembled `bid` is neither 0 nor 1, the canonical
`parse_pt_bo` returns status 1, and all three fixed-width entry points
return a nonzero status (2, or 1 when the corrected timestamps are out of
order) — but the canonical `parse_pt` and `parse` do not examine `bid` at
all and can return 0 (see the counterexample). -/
theorem C1_bad_bid :
    (∀ s, 1 < (Canonical.parser s).bid → (Canonical.parse_pt_bo s).1 = 1) ∧
    (∀ s, 1 < (Variant.parser s).bid →
      (Variant.parse_pt_bo s).1 ≠ 0 ∧ (Variant.parse_pt s).1 ≠ 0 ∧
      (Variant.parse s).1 ≠ 0) := by
  constructor
  · intro s h
    simp only [Canonical.parse_pt_bo]
    generalize Canonical.parser s = r at h ⊢
    simp only [Canonical.parse_pt_bo_rec]
    rw [if_pos h]
  · intro s h
    simp only [Variant.parse_pt_bo, Variant.parse_pt, Variant.parse]
    generalize Variant.parser s = r at h ⊢
    simp only [Variant.parse_pt_bo_rec, Variant.parse_pt_rec, Variant.parse_rec,
      Variant.has_badval]
    split_ifs <;> simp_all

/-- C1 witness: the quantified parts of `C1_bad_bid` at the concrete
`bid = 2` lines. -/
theorem C1_bad_bid_witness :
    (Canonical.parse_pt_bo cLineBid2).1 = 1 ∧ (Variant.parse vLineBid2).1 ≠ 0 :=
  ⟨C1_bad_bid.1 cLineBid2 (by decide), (C1_bad_bid.2 vLineBid2 (by decide)).2.2⟩

/-- C3 counterexample: a fixed-width-format line that fails validation with
status 1 (`issued > rtime`), whose returned `issued` nevertheless differs
from the assembled one — the fixed-width variant applies the Pacific-to-UTC
correction before validating, also on rejected records. -/
theorem C3_counterexample :
    (Variant.parse_pt vLineRev).1 = 1 ∧
    (Variant.parse_pt vLineRev).2.issued ≠ (Variant.parser vLineRev).issued := by
  refine ⟨by decide, by decide⟩

/-- C3 amended: in the canonical variant, a line rejected by `parse_pt_bo`
or `parse_pt` keeps its assembled `issued` and `rtime` (the correction runs
only on the success path); in the fixed-width variant both entry points
apply `pt_to_utc` to `issued` and `rtime` unconditionally, before
validation, so rejected records carry corrected timestamps. -/
theorem C3_correction_after_validation :
    (∀ s, (Canonical.parse_pt_bo s).1 = 1 →
      (Canonical.parse_pt_bo s).2.issued = (Canonical.parser s).issued ∧
      (Canonical.parse_pt_bo s).2.rtime = (Canonical.parser s).rtime) ∧
    (∀ s, (Canonical.parse_pt s).1 = 1 →
      (Canonical.parse_pt s).2.issued = (Canonical.parser s).issued ∧
      (Canonical.parse_pt s).2.rtime = (Canonical.parser s).rtime) ∧
    (∀ s, (Variant.parse_pt_bo s).2.issued = pt_to_utc (Variant.parser s).issued ∧
      (Variant.parse_pt_bo s).2.rtime = pt_to_utc (Variant.parser s).rtime) ∧
    (∀ s, (Variant.parse_pt s).2.issued = pt_to_utc (Variant.parser s).issued ∧
      (Variant.parse_pt s).2.rtime = pt_to_utc (Variant.parser s).rtime) := by
  refine ⟨?_, ?_, ?_, ?_⟩
  · intro s h
    simp only [Canonical.parse_pt_bo] at h ⊢
    generalize Canonical.parser s = r at h ⊢
    simp only [Canonical.parse_pt_bo_rec] at h ⊢
    split_ifs at h ⊢ <;> simp_all
  · intro s h
    simp only [Canonical.parse_pt] at h ⊢
    generalize Canonical.parser s = r at h ⊢
    simp only [Canonical.parse_pt_rec] at h ⊢
    split_ifs at h ⊢
    simp_all
  · intro s
    simp only [Variant.parse_pt_bo]
    generalize Variant.parser s = r
    simp only [Variant.parse_pt_bo_rec]
    split_ifs <;> simp
  · intro s
    simp only [Variant.parse_pt]
    generalize Variant.parser s = r
    simp [Variant.parse_pt_rec]

/-- C3 witness: the hypothesis-bearing parts of
`C3_correction_after_validation` at a rejected canonical-format line. -/
theorem C3_correction_after_validation_witness :
    (Canonical.parse_pt cLineRev).2.issued = (Canonical.parser cLineRev).issued ∧
    (Canonical.parse_pt cLineRev).2.rtime = (Canonical.parser cLineRev).rtime :=
  C3_correction_after_validation.2.1 cLineRev (by decide)

/-- C5 counterexample: the fixed-width `parse` returns status 2 (not 0 or 1)
on a line whose `bid` is 2 while the other invariants hold. -/
theorem C5_counterexample :
    (Variant.parse vLineBid2).1 = 2 ∧
    ¬((Variant.parse vLineBid2).1 = 0 ∨ (Variant.parse vLineBid2).1 = 1) := by
  refine ⟨by decide, by decide⟩

/-- C5 amended: the canonical entry points return only status 0 or 1, for
every input line; the fixed-width entry points return 0, 1, 2 or 3 (the
value of `has_badval`, identifying which invariant failed). -/
theorem C5_status_values :
    (∀ s, (Canonical.parse_pt_bo s).1 = 0 ∨ (Canonical.parse_pt_bo s).1 = 1) ∧
    (∀ s, (Canonical.parse_pt s).1 = 0 ∨ (Canonical.parse_pt s).1 = 1) ∧
    (∀ s, (Canonical.parse s).1 = 0 ∨ (Canonical.parse s).1 = 1) ∧
    (∀ s, (Variant.parse_pt_bo s).1 = 0 ∨ (Variant.parse_pt_bo s).1 = 1 ∨
      (Variant.parse_pt_bo s).1 = 2 ∨ (Variant.parse_pt_bo s).1 = 3) ∧
    (∀ s, (Variant.parse_pt s).1 = 0 ∨ (Variant.parse_pt s).1 = 1 ∨
      (Variant.parse_pt s).1 = 2 ∨ (Variant.parse_pt s).1 = 3) ∧
    (∀ s, (Variant.parse s).1 = 0 ∨ (Variant.parse s).1 = 1 ∨
      (Variant.parse s).1 = 2 ∨ (Variant.parse s).1 = 3) := by
  refine ⟨?_, ?_, ?_, ?_, ?_, ?_⟩ <;> intro s <;>
    simp only [Canonical.parse_pt_bo, Canonical.parse_pt, Canonical.parse,
      Variant.parse_pt_bo, Variant.parse_pt, Variant.parse] <;>
    first
      | (generalize Canonical.parser s = r
         simp only [Canonical.parse_pt_bo_rec, Canonical.parse_pt_rec,
           Canonical.parse_rec]
         split_ifs <;> simp)
      | (generalize Variant.parser s = r
         simp only [Variant.parse_pt_bo_rec, Variant.parse_pt_rec,
           Variant.parse_rec, Variant.has_badval]
         split_ifs <;> simp)

/-- C9 counterexample: a fixed-width-format Epoch A buy-order line whose
assembled record has `bid = 1`, a valid range and `issued ≤ rtime`
(1144033152 ≤ 1144033280), yet `parse_pt_bo` returns status 1: the two
timestamps straddle the first DST boundary, so the correction (applied
before validation in this variant) reverses their order. -/
theorem C9_counterexample :
    (Variant.parser vLineDst).bid = 1 ∧
    (Variant.parser vLineDst).issued ≤ (Variant.parser vLineDst).rtime ∧
    (Variant.parse_pt_bo vLineDst).1 = 1 := by
  refine ⟨by decide, by decide, by decide⟩

/-- C9 amended: for a record assembled with `bid = 1`, both `parse_pt_bo`
variants force `range` to `-1` regardless of the parsed value; the
canonical variant returns status 0 iff the assembled `issued ≤ rtime`,
while the fixed-width variant returns status 0 iff the ordering holds after
the Pacific-to-UTC correction — which can differ from the assembled
ordering near a DST boundary (see the counterexample). -/
theorem C9_buy_order_range :
    (∀ s, (Canonical.parser s).bid = 1 →
      (Canonical.parse_pt_bo s).2.range = -1 ∧
      ((Canonical.parse_pt_bo s).1 = 0 ↔
        (Canonical.parser s).issued ≤ (Canonical.parser s).rtime)) ∧
    (∀ s, (Variant.parser s).bid = 1 →
      (Variant.parse_pt_bo s).2.range = -1 ∧
      ((Variant.parse_pt_bo s).1 = 0 ↔
        pt_to_utc (Variant.parser s).issued ≤ pt_to_utc (Variant.parser s).rtime)) := by
  constructor
  · intro s h
    simp only [Canonical.parse_pt_bo]
    generalize Canonical.parser s = r at h ⊢
    simp only [Canonical.parse_pt_bo_rec]
    rw [if_neg (by omega), if_pos h]
    have hr : Canonical.range_to_byte (-1) = -1 := by decide
    rw [hr]
    split_ifs with hv <;> simp_all
  · intro s h
    simp only [Variant.parse_pt_bo]
    generalize Variant.parser s = r at h ⊢
    simp only [Variant.parse_pt_bo_rec, Variant.has_badval]
    rw [if_pos h]
    split_ifs <;> simp_all

/-- C9 witness: the two quantified parts of `C9_buy_order_range` at concrete
buy-order lines. -/
theorem C9_buy_order_range_witness :
    ((Canonical.parse_pt_bo cLineBid1).2.range = -1 ∧
      ((Canonical.parse_pt_bo cLineBid1).1 = 0 ↔
        (Canonical.parser cLineBid1).issued ≤ (Canonical.parser cLineBid1).rtime)) ∧
    ((Variant.parse_pt_bo vLineDst).2.range = -1 ∧
      ((Variant.parse_pt_bo vLineDst).1 = 0 ↔
        pt_to_utc (Variant.parser vLineDst).issued ≤
          pt_to_utc (Variant.parser vLineDst).rtime)) :=
  ⟨C9_buy_order_range.1 cLineBid1 (by decide),
   C9_buy_order_range.2 vLineDst (by decide)⟩

end Eve
